import Mathlib

/-
Verification development for the crawl-and-cache backend (src/app.py).

The Python source is shallowly embedded: pure text processing becomes Lean
functions over lists of characters, the stateful crawl loop becomes a
fuel-bounded recursion over an abstract page-fetching function
(`Nat → Option (List Elem)`, `none` standing for a fetch exception), the
global `cache_data` dict becomes an explicit `CacheState` record, and the
two cache files become an explicit `FS` record whose contents are modelled
at the JSON-value level.  I/O failures inside `save_cache` are modelled by
two injected failure flags (one per `json.dump` call); a failed dump leaves
the file just truncated/partially written, i.e. unparseable (`malformed`),
which matches CPython semantics for `open(f, "w")` followed by a failing
`json.dump`.
-/

/-! ## Python string primitives used by app.py -/

/-- Whitespace characters stripped by Python's `str.strip()` (ASCII range). -/
def isPySpace (c : Char) : Bool :=
  c = ' ' || c = '\t' || c = '\n' || c = '\r' || c = '\x0B' || c = '\x0C'

/-- Python `str.strip()`. -/
def pyStrip (s : String) : String :=
  ⟨((s.data.dropWhile isPySpace).reverse.dropWhile isPySpace).reverse⟩

def pySplitAux (sep : Char) : List Char → List Char → List String
  | [], acc => [⟨acc.reverse⟩]
  | c :: rest, acc =>
    if c = sep then ⟨acc.reverse⟩ :: pySplitAux sep rest []
    else pySplitAux sep rest (c :: acc)

/-- Python `str.split(sep)` for a single-character separator
(keeps empty pieces; `"".split(c) = [""]`). -/
def pySplit (sep : Char) (s : String) : List String :=
  pySplitAux sep s.data []

/-- Python slicing `s[:n]` (by code points). -/
def pyTake (s : String) (n : Nat) : String :=
  ⟨s.data.take n⟩

def digitsVal (cs : List Char) : Nat :=
  cs.foldl (fun a c => a * 10 + (c.toNat - 48)) 0

/-- The regex `^[+-]\d+$` as a full-string match: a mandatory sign followed by
one or more digits and nothing else. -/
def matchSignedIntFull (s : String) : Bool :=
  match s.data with
  | c :: d :: rest => (c = '+' || c = '-') && (d :: rest).all Char.isDigit
  | _ => false

/-- Python `int(...)` on a string accepted by `matchSignedIntFull`. -/
def parseSignedInt (s : String) : Int :=
  match s.data with
  | c :: rest => if c = '-' then -(digitsVal rest : Int) else (digitsVal rest : Int)
  | [] => 0

/-- The regex `^[+-]?\d+` as a match at the start of the string: an optional
sign followed by at least one digit. -/
def startsWithNumber (s : String) : Bool :=
  match s.data with
  | [] => false
  | c :: rest =>
    c.isDigit ||
      ((c = '+' || c = '-') &&
        (match rest with | d :: _ => d.isDigit | [] => false))

/-- The name-line test from the extractor:
`line and not re.match(r'^[+-]?\d+', line) and len(line) > 1`. -/
def isNameLine (l : String) : Bool :=
  (!l.data.isEmpty) && (!startsWithNumber l) && decide (1 < l.data.length)

def pyTitleAux : Bool → List Char → List Char
  | _, [] => []
  | prevAlpha, c :: rest =>
    (if prevAlpha then c.toLower else c.toUpper) :: pyTitleAux c.isAlpha rest

/-- Python `str.title()` restricted to ASCII letters as the cased characters. -/
def pyTitle (s : String) : String :=
  ⟨pyTitleAux false s.data⟩

/-- `character.replace('-', ' ').title()`. -/
def displayName (slug : String) : String :=
  pyTitle ⟨slug.data.map (fun c => if c = '-' then ' ' else c)⟩

/-- `move_notation.replace('/', '').replace('+', '%2B')`. -/
def sanitizeNotat (s : String) : String :=
  ⟨(s.data.filter (fun c => !(c = '/'))).flatMap
      (fun c => if c = '+' then ['%', '2', 'B'] else [c])⟩

/-- The constructed fallback video URL. -/
def fallbackUrl (character notat : String) : String :=
  "https://okizeme.b-cdn.net/" ++ character ++ "/" ++ sanitizeNotat notat ++ ".mp4"

/-! ## Data model -/

/-- One rendered "move" DOM element: its `.text` and the `src` attribute of a
nested `video` element when one exists (`none` when `find_element` raises). -/
structure Elem where
  text : String
  videoSrc : Option String
deriving DecidableEq, Repr

/-- One move record, exactly the dict built by `extract_moves_from_page`. -/
structure Move where
  character : String
  move : String
  name : String
  onBlock : Int
  onHit : Int
  videoUrl : String
deriving DecidableEq, Repr

/-- The dedup key `(move['move'], move['onBlock'], move['onHit'])`. -/
abbrev MoveKey := String × Int × Int

def moveKey (m : Move) : MoveKey :=
  (m.move, m.onBlock, m.onHit)

def moveKeys (l : List Move) : List MoveKey :=
  l.map moveKey

/-! ## extract_moves_from_page -/

/-- Processing of one `move_div` inside `extract_moves_from_page`
(src/app.py lines 123-175); `none` is the `continue` path. -/
def extractOne (character : String) (e : Elem) : Option Move :=
  let text := pyStrip e.text
  if text = "" then none
  else
    let lines := pySplit '\n' text
    if lines.length < 2 then none
    else
      let notat := pyStrip (lines.headD "")
      let frameData := ((lines.map pyStrip).filter matchSignedIntFull).map parseSignedInt
      let frames :=
        match frameData.reverse with
        | a :: b :: _ => (b, a)
        | _ => ((0 : Int), (0 : Int))
      let name := (lines.tail.find? isNameLine).getD notat
      let videoUrl :=
        match e.videoSrc with
        | some v => if v = "" then fallbackUrl character notat else v
        | none => fallbackUrl character notat
      some { character := displayName character, move := notat, name := pyTake name 50,
             onBlock := frames.1, onHit := frames.2, videoUrl := videoUrl }

/-- `extract_moves_from_page` (src/app.py lines 115-179) applied to the page's
move elements. -/
def extract_moves_from_page (divs : List Elem) (character : String) : List Move :=
  divs.filterMap (extractOne character)

/-! ## scrape_character_all_pages -/

/-- The loop state of `scrape_character_all_pages` (src/app.py lines 182-228).
`seen` models the Python set of dedup keys (insertion at the head). -/
structure ScrapeState where
  all_moves : List Move
  seen : List MoveKey
  consecutive_no_new_moves : Nat
  last_page_count : Nat
deriving DecidableEq, Repr

def initScrapeState : ScrapeState :=
  { all_moves := [], seen := [], consecutive_no_new_moves := 0, last_page_count := 0 }

/-- The per-move dedup loop (lines 206-212): returns the updated `all_moves`,
the updated `seen` set and `new_moves_this_page`. -/
def addNewMoves : List MoveKey → List Move → List Move → List Move × List MoveKey × Nat
  | seen, acc, [] => (acc, seen, 0)
  | seen, acc, m :: rest =>
    if moveKey m ∈ seen then addNewMoves seen acc rest
    else
      let r := addNewMoves (moveKey m :: seen) (acc ++ [m]) rest
      (r.1, r.2.1, r.2.2 + 1)

/-- Outcome of one iteration of the `while` loop: either the loop breaks
(`stop`) or continues with `page + 1` (`next`). -/
inductive StepResult where
  | stop (s : ScrapeState)
  | next (s : ScrapeState)
deriving DecidableEq, Repr

def stepState : StepResult → ScrapeState
  | .stop s => s
  | .next s => s

def isStop : StepResult → Bool
  | .stop _ => true
  | .next _ => false

/-- One iteration of the page loop (lines 191-223).  `divsOpt = none` models a
fetch exception (the `except` clause breaks out of the loop). -/
def scrapePage (character : String) (divsOpt : Option (List Elem)) (s : ScrapeState) :
    StepResult :=
  match divsOpt with
  | none => .stop s
  | some divs =>
    if divs.isEmpty then .stop s
    else
      let moves := extract_moves_from_page divs character
      if moves.isEmpty then .stop s
      else
        let r := addNewMoves s.seen s.all_moves moves
        if r.2.2 = 0 ∧ moves.length = s.last_page_count then
          if s.consecutive_no_new_moves + 1 ≥ 2 then
            .stop { all_moves := r.1, seen := r.2.1,
                    consecutive_no_new_moves := s.consecutive_no_new_moves + 1,
                    last_page_count := s.last_page_count }
          else
            .next { all_moves := r.1, seen := r.2.1,
                    consecutive_no_new_moves := s.consecutive_no_new_moves + 1,
                    last_page_count := moves.length }
        else
          .next { all_moves := r.1, seen := r.2.1,
                  consecutive_no_new_moves := 0,
                  last_page_count := moves.length }

/-- The `while page <= 100` loop, with `fuel = 101 - page` remaining
iterations.  The second component counts how many pages were fetched
(each loop iteration performs exactly one `driver.get`). -/
def scrapeGo (fetch : Nat → Option (List Elem)) (character : String) :
    Nat → Nat → ScrapeState → ScrapeState × Nat
  | 0, _, s => (s, 0)
  | fuel + 1, page, s =>
    match scrapePage character (fetch page) s with
    | .stop s' => (s', 1)
    | .next s' =>
      let r := scrapeGo fetch character fuel (page + 1) s'
      (r.1, r.2 + 1)

def scrapeRun (fetch : Nat → Option (List Elem)) (character : String) :
    ScrapeState × Nat :=
  scrapeGo fetch character 100 1 initScrapeState

/-- `scrape_character_all_pages` (lines 182-228): the deduplicated record list
accumulated for one character.  `fetch n` is the content of
`.../database/{character}?page={n}`. -/
def scrape_character_all_pages (fetch : Nat → Option (List Elem)) (character : String) :
    List Move :=
  (scrapeRun fetch character).1.all_moves

/-! ## Cache state, durable files, load_cache, save_cache -/

/-- The roster (src/app.py lines 25-31). -/
def CHARACTERS : List String :=
  ["alisa", "anna", "armor-king", "asuka", "azucena", "bryan", "claudio",
   "clive", "devil-jin", "dragunov", "eddy", "fahkumram", "feng", "heihachi",
   "hwoarang", "jack-8", "jin", "jun", "kazuya", "king", "kuma", "lars",
   "law", "lee", "leo", "leroy", "lidia", "lili", "nina", "panda", "paul",
   "raven", "reina", "shaheen", "steve", "victor", "xiaoyu", "yoshimitsu", "zafina"]

/-- The global `cache_data` dict (lines 37-43). -/
structure CacheState where
  moves : List Move
  last_updated : Option String
  is_scraping : Bool
  progress : Nat
  current_character : String
deriving DecidableEq, Repr

/-- The initial value of `cache_data`. -/
def initCacheData : CacheState :=
  { moves := [], last_updated := none, is_scraping := false,
    progress := 0, current_character := "" }

/-- Possible parsed JSON shapes of `moves_cache.json` that `load_cache`
distinguishes: a bare list, a dict with a `moves` field, or any other JSON
value (a dict without `moves`, a scalar, ...). -/
inductive JValue where
  | list (ms : List Move)
  | objMoves (ms : List Move)
  | other
deriving DecidableEq, Repr

/-- Content of the primary cache file: parseable JSON or unparseable bytes
(`json.load` raises on the latter, e.g. after a truncated write). -/
inductive FileContent where
  | json (v : JValue)
  | malformed
deriving DecidableEq, Repr

/-- The companion metadata dict written by `save_cache` (lines 80-84). -/
structure Metadata where
  last_updated : String
  total_moves : Nat
  characters : Nat
deriving DecidableEq, Repr

/-- Content of `cache_metadata.json`. -/
inductive MetaContent where
  | ok (m : Metadata)
  | malformedMeta
deriving DecidableEq, Repr

/-- The durable storage: the two cache files (`none` = file does not exist). -/
structure FS where
  cacheFile : Option FileContent
  metaFile : Option MetaContent
deriving DecidableEq, Repr

/-- `load_cache` (lines 46-71).  Returns the updated `cache_data` and the
boolean result.  Note that `cache_data['moves']` is assigned before the
metadata file is read, so a malformed metadata file yields `False` while the
moves are already updated — exactly as in the source. -/
def load_cache (fs : FS) (st : CacheState) : CacheState × Bool :=
  match fs.cacheFile with
  | none => (st, false)
  | some .malformed => (st, false)
  | some (.json v) =>
    let ms := match v with
      | .list ms => ms
      | .objMoves ms => ms
      | .other => []
    let st1 := { st with moves := ms }
    match fs.metaFile with
    | none => (st1, true)
    | some (.ok md) => ({ st1 with last_updated := some md.last_updated }, true)
    | some .malformedMeta => (st1, false)

/-- `save_cache` (lines 74-93).  `now` is `datetime.now().isoformat()`.
`fail1`/`fail2` inject an I/O failure into the first/second `json.dump`; a
failing dump happens after `open(..., 'w')` has truncated the file, leaving
it malformed.  Returns the file system, the updated `cache_data` and the
boolean result. -/
def save_cache (fs : FS) (st : CacheState) (now : String) (fail1 fail2 : Bool) :
    FS × CacheState × Bool :=
  if fail1 then ({ fs with cacheFile := some .malformed }, st, false)
  else
    let fs1 := { fs with cacheFile := some (.json (.list st.moves)) }
    let md : Metadata :=
      { last_updated := now, total_moves := st.moves.length,
        characters := (st.moves.map Move.character).dedup.length }
    if fail2 then ({ fs1 with metaFile := some .malformedMeta }, st, false)
    else
      ({ fs1 with metaFile := some (.ok md) },
       { st with last_updated := some now }, true)

/-! ## scrape_all_characters_background -/

/-- The body of the roster loop (lines 245-256) for one character.
`fetch c n` is the rendered page `n` for character `c`. -/
def crawlCharStep (fetch : String → Nat → Option (List Elem)) (c : String)
    (idx total : Nat) (st : CacheState) : CacheState :=
  let stA := { st with current_character := c, progress := idx * 100 / total }
  let mvs := scrape_character_all_pages (fetch c) c
  if mvs.isEmpty then stA else { stA with moves := stA.moves ++ mvs }

/-- The roster loop over the remaining characters. -/
def crawlChars (fetch : String → Nat → Option (List Elem)) :
    List String → Nat → Nat → CacheState → CacheState
  | [], _, _, st => st
  | c :: cs, idx, total, st =>
    crawlChars fetch cs (idx + 1) total (crawlCharStep fetch c idx total st)

/-- The successive values of `cache_data` after each character of the roster
loop, starting from the given state. -/
def statesFrom (fetch : String → Nat → Option (List Elem)) :
    List String → Nat → Nat → CacheState → List CacheState
  | [], _, _, _ => []
  | c :: cs, idx, total, st =>
    let st' := crawlCharStep fetch c idx total st
    st' :: statesFrom fetch cs (idx + 1) total st'

/-- All values of the shared `cache_data` observable by concurrent queries
during a run with a working fetcher: the state right after the reset at run
start (lines 235-237), then the state after each roster entry. -/
def backgroundStates (fetch : String → Nat → Option (List Elem)) (st : CacheState) :
    List CacheState :=
  let st1 := { st with is_scraping := true, progress := 0, moves := [] }
  st1 :: statesFrom fetch CHARACTERS 0 CHARACTERS.length st1

/-- `scrape_all_characters_background` (lines 231-263).  `driverOk = false`
models `create_driver()` returning `None`; `fail1`/`fail2` are passed to the
final `save_cache()`.  Returns the durable files and the final `cache_data`. -/
def scrape_all_characters_background (fetch : String → Nat → Option (List Elem))
    (driverOk : Bool) (fs : FS) (st : CacheState) (now : String) (fail1 fail2 : Bool) :
    FS × CacheState :=
  let st1 := { st with is_scraping := true, progress := 0, moves := [] }
  if driverOk then
    let st2 := crawlChars fetch CHARACTERS 0 CHARACTERS.length st1
    let r := save_cache fs st2 now fail1 fail2
    (r.1, { r.2.1 with is_scraping := false, progress := 100, current_character := "" })
  else
    (fs, { st1 with is_scraping := false })

/-! ## Concrete sample values used by counterexamples and witnesses -/

/-- A sample cached record. -/
def mSample : Move :=
  { character := "Paul", move := "1,2", name := "Generic Move",
    onBlock := 0, onHit := 0, videoUrl := "https://okizeme.b-cdn.net/paul/1,2.mp4" }

/-- A durable state holding one previously committed record. -/
def fsSample : FS :=
  { cacheFile := some (.json (.list [mSample])), metaFile := none }

/-- An in-memory cache holding one previously loaded record. -/
def stWithMove : CacheState :=
  { initCacheData with moves := [mSample] }

/-- A fetcher whose every page holds zero move elements. -/
def fetchEmpty : String → Nat → Option (List Elem) :=
  fun _ _ => some []

/-- A two-line element that extracts to one record (frames default to 0). -/
def elemA : Elem :=
  { text := "1,2\nGeneric Move", videoSrc := none }

/-- A single-line element, skipped by the extractor. -/
def elemSkip : Elem :=
  { text := "x", videoSrc := none }

/-! ## Claim C1 — save atomicity -/

/-- C1 counterexample: starting from a durable state whose cache file loads
back one record, a `save_cache` whose first `json.dump` fails leaves a
durable state from which a fresh load yields the empty list: the prior
durable snapshot is destroyed, not left untouched. -/
theorem claim_C1_counterexample :
    (load_cache fsSample initCacheData).1.moves = [mSample]
    ∧ (load_cache (save_cache fsSample initCacheData "t" true false).1 initCacheData).1.moves = []
    ∧ [mSample] ≠ ([] : List Move) :=
  ⟨rfl, rfl, by decide⟩

/-- C1 (amended): `save_cache` overwrites the record file and then the
metadata file in place, computing the metadata (timestamp, total count,
distinct-character count) freshly; it is not write-then-swap.  A failure in
the record dump is reported (`false`) and leaves the metadata file and the
in-memory state untouched, but the record file has already been truncated,
so the prior durable state is lost and a future load yields the empty
list. -/
theorem claim_C1_amended (fs : FS) (st : CacheState) (now : String) :
    save_cache fs st now false false
      = ({ cacheFile := some (.json (.list st.moves)),
           metaFile := some (.ok { last_updated := now, total_moves := st.moves.length,
                                   characters := (st.moves.map Move.character).dedup.length }) },
         { st with last_updated := some now }, true)
    ∧ save_cache fs st now true false = ({ fs with cacheFile := some .malformed }, st, false)
    ∧ (load_cache { fs with cacheFile := some .malformed } initCacheData).1.moves = [] :=
  ⟨rfl, rfl, rfl⟩

/-! ## Claim C2 — failed fetcher creation -/

/-- C2 counterexample: with a cache holding one record, a run whose fetcher
cannot be created leaves the durable files untouched but the in-memory
record list served to queries is empty afterwards — not the same as before
the failed run. -/
theorem claim_C2_counterexample :
    (scrape_all_characters_background fetchEmpty false fsSample stWithMove "t" false false).1
        = fsSample
    ∧ (scrape_all_characters_background fetchEmpty false fsSample stWithMove "t" false false).2.moves
        = []
    ∧ stWithMove.moves ≠ [] :=
  ⟨rfl, rfl, by decide⟩

/-- C2 (amended): if the fetcher cannot be created, the run terminates
immediately without persisting — the durable files are exactly as before —
but the in-memory record list has already been cleared at run start, so
queries after the failed run see an empty list (and progress reset to 0),
not the prior cache contents. -/
theorem claim_C2_amended (fetch : String → Nat → Option (List Elem)) (fs : FS)
    (st : CacheState) (now : String) (fail1 fail2 : Bool) :
    scrape_all_characters_background fetch false fs st now fail1 fail2
      = (fs, { st with moves := [], is_scraping := false, progress := 0 }) :=
  rfl

/-! ## Claim C8 — idempotent reload -/

/-- C8: a successful `save_cache` followed by `load_cache` yields exactly the
saved record list (hence equal as a set), and the saved metadata records
`total_moves = len(records)` and `characters = ` the number of distinct
`character` values. -/
theorem claim_C8 (fs : FS) (st stQ : CacheState) (now : String) :
    (load_cache (save_cache fs st now false false).1 stQ).1.moves = st.moves
    ∧ (save_cache fs st now false false).1.metaFile
        = some (.ok { last_updated := now, total_moves := st.moves.length,
                      characters := (st.moves.map Move.character).dedup.length }) :=
  ⟨rfl, rfl⟩

/-! ## Claim C9 — legacy cache shapes -/

/-- C9: `load_cache` accepts a file holding `{"moves": [...]}` (returning the
inner list unchanged) and a bare list (returned unchanged), and a missing
file or malformed content leaves the startup state's empty record list in
place — the function is total, so the process never fails. -/
theorem claim_C9 (ms : List Move) (mf : Option MetaContent) (st : CacheState) :
    (load_cache { cacheFile := some (.json (.objMoves ms)), metaFile := mf } st).1.moves = ms
    ∧ (load_cache { cacheFile := some (.json (.list ms)), metaFile := mf } st).1.moves = ms
    ∧ (load_cache { cacheFile := none, metaFile := mf } initCacheData).1.moves = []
    ∧ (load_cache { cacheFile := some .malformed, metaFile := mf } initCacheData).1.moves = [] := by
  obtain _ | (_ | _) := mf <;> exact ⟨rfl, rfl, rfl, rfl⟩

/-! ## Claim C3 — snapshot vs in-flight list -/

lemma statesFrom_getLastD (fetch : String → Nat → Option (List Elem)) :
    ∀ (cs : List String) (idx total : Nat) (st : CacheState),
      (statesFrom fetch cs idx total st).getLastD st = crawlChars fetch cs idx total st := by
  intro cs
  induction cs with
  | nil => intro idx total st; rfl
  | cons c cs ih =>
    intro idx total st
    simp only [statesFrom, crawlChars, List.getLastD_cons]
    exact ih (idx + 1) total (crawlCharStep fetch c idx total st)

lemma statesFrom_chain (fetch : String → Nat → Option (List Elem)) :
    ∀ (cs : List String) (idx total : Nat) (st : CacheState),
      List.Chain' (fun a b => ∃ t, a.moves ++ t = b.moves) (st :: statesFrom fetch cs idx total st) := by
  intro cs
  induction cs with
  | nil => intro idx total st; simp [statesFrom]
  | cons c cs ih =>
    intro idx total st
    refine List.Chain'.cons ?_ (ih (idx + 1) total (crawlCharStep fetch c idx total st))
    unfold crawlCharStep
    by_cases h : (scrape_character_all_pages (fetch c) c).isEmpty
    · exact ⟨[], by simp [h]⟩
    · exact ⟨scrape_character_all_pages (fetch c) c, by simp [h]⟩

/-- C3 counterexample: during a run (the fetcher came up, `is_scraping` is
true), queries can observe a state whose record list is empty even though
the snapshot committed before the run held one record — the very first
observable in-run state has the list cleared. -/
theorem claim_C3_counterexample :
    ((backgroundStates fetchEmpty stWithMove).headD initCacheData).is_scraping = true
    ∧ ((backgroundStates fetchEmpty stWithMove).headD initCacheData).moves = []
    ∧ stWithMove.moves = [mSample]
    ∧ ([] : List Move) ≠ [mSample] :=
  ⟨rfl, rfl, rfl, by decide⟩

/-- C3 (amended): the durable snapshot files are written only by the single
`save_cache` at the end of the run (applied to the last in-run state), but
queries read the live in-memory list, which is cleared at run start and
grows by each character's results; so during a run queries observe the
partially accumulated in-flight list, not the pre-run snapshot. -/
theorem claim_C3_amended (fetch : String → Nat → Option (List Elem)) (fs : FS)
    (st : CacheState) (now : String) (fail1 fail2 : Bool) :
    ((backgroundStates fetch st).headD initCacheData).moves = []
    ∧ List.Chain' (fun a b => ∃ t, a.moves ++ t = b.moves) (backgroundStates fetch st)
    ∧ (scrape_all_characters_background fetch true fs st now fail1 fail2).1
        = (save_cache fs ((backgroundStates fetch st).getLastD initCacheData) now fail1 fail2).1 := by
  refine ⟨rfl, ?_, ?_⟩
  · exact statesFrom_chain fetch CHARACTERS 0 CHARACTERS.length _
  · show _ = (save_cache fs ((backgroundStates fetch st).getLastD initCacheData) now fail1 fail2).1
    unfold backgroundStates
    rw [List.getLastD_cons, statesFrom_getLastD]
    rfl

/-! ## Claims C6 / C10 — extractor skip rule and defaults -/

lemma pySplitAux_length (sep : Char) :
    ∀ (l acc : List Char), (pySplitAux sep l acc).length = l.count sep + 1 := by
  intro l
  induction l with
  | nil => intro acc; rfl
  | cons c rest ih =>
    intro acc
    by_cases h : c = sep <;>
      simp [pySplitAux, h, ih, List.count_cons]

lemma pySplit_length (sep : Char) (s : String) :
    (pySplit sep s).length = s.data.count sep + 1 :=
  pySplitAux_length sep s.data []

/-- C6 counterexample: an element whose text is only a notation line (a
single line, no signed-integer tokens) yields no record at all — it is
skipped by the fewer-than-2-lines rule, so it does not yield a record with
`onBlock = 0`, `onHit = 0`, `name = notation`. -/
theorem claim_C6_counterexample :
    extract_moves_from_page [{ text := "1,2", videoSrc := none }] "paul" = [] := rfl

/-- C6 (amended): an element whose stripped text has at least two lines, with
no line matching the signed-integer pattern and no qualifying name line
after the first, yields exactly one record with `onBlock = 0`, `onHit = 0`
and `name` equal to the notation (the stripped first line, truncated to 50
characters); an element with only a notation line is skipped and yields no
record (see the counterexample). -/
theorem claim_C6_amended (e : Elem) (c : String)
    (h0 : pyStrip e.text ≠ "")
    (h1 : 2 ≤ (pySplit '\n' (pyStrip e.text)).length)
    (h2 : ∀ l ∈ pySplit '\n' (pyStrip e.text), matchSignedIntFull (pyStrip l) = false)
    (h3 : ∀ l ∈ (pySplit '\n' (pyStrip e.text)).tail, isNameLine l = false) :
    (extract_moves_from_page [e] c).map (fun m => (m.name, m.onBlock, m.onHit))
      = [(pyTake (pyStrip ((pySplit '\n' (pyStrip e.text)).headD "")) 50, (0 : Int), (0 : Int))] := by
  have h1' : ¬ (pySplit '\n' (pyStrip e.text)).length < 2 := by omega
  have hfr : ((pySplit '\n' (pyStrip e.text)).map pyStrip).filter matchSignedIntFull = [] := by
    rw [List.filter_eq_nil_iff]
    intro a ha
    obtain ⟨l, hl, rfl⟩ := List.mem_map.mp ha
    simp [h2 l hl]
  have hfind : ((pySplit '\n' (pyStrip e.text)).tail).find? isNameLine = none := by
    rw [List.find?_eq_none]
    intro x hx
    simp [h3 x hx]
  simp [extract_moves_from_page, extractOne, h0, h1', hfr, hfind]

/-- C6 witness instance: the element `"1,2\nx"` (second line too short to be a
name line, no signed-integer tokens) yields the defaulted record fields. -/
theorem claim_C6_amended_witness :
    (extract_moves_from_page [(⟨"1,2\nx", none⟩ : Elem)] "paul").map
        (fun m => (m.name, m.onBlock, m.onHit))
      = [(pyTake (pyStrip ((pySplit '\n' (pyStrip "1,2\nx")).headD "")) 50, (0 : Int), (0 : Int))] :=
  claim_C6_amended ⟨"1,2\nx", none⟩ "paul" (by decide) (by decide) (by decide) (by decide)

/-- C10: one element yields no record exactly when its stripped text is empty
or has no newline (so fewer than two lines, empty interior lines counted);
and when there are at least two lines and every later line is blank or
starts like a number, the record's name defaults to the notation. -/
theorem claim_C10 (e : Elem) (c : String) :
    (extract_moves_from_page [e] c = []
        ↔ (pyStrip e.text = "" ∨ '\n' ∉ (pyStrip e.text).data))
    ∧ (2 ≤ (pySplit '\n' (pyStrip e.text)).length →
        (∀ l ∈ (pySplit '\n' (pyStrip e.text)).tail, l = "" ∨ startsWithNumber l = true) →
        (extract_moves_from_page [e] c).map Move.name
          = [pyTake (pyStrip ((pySplit '\n' (pyStrip e.text)).headD "")) 50]) := by
  constructor
  · by_cases h0 : pyStrip e.text = ""
    · constructor
      · intro _; exact Or.inl h0
      · intro _; simp [extract_moves_from_page, extractOne, h0]
    · by_cases h1 : (pySplit '\n' (pyStrip e.text)).length < 2
      · have hnin : '\n' ∉ (pyStrip e.text).data := by
          rw [← List.count_eq_zero]
          have := pySplit_length '\n' (pyStrip e.text)
          omega
        constructor
        · intro _; exact Or.inr hnin
        · intro _; simp [extract_moves_from_page, extractOne, h0, h1]
      · have hin : '\n' ∈ (pyStrip e.text).data := by
          by_contra hc
          rw [← List.count_eq_zero] at hc
          have := pySplit_length '\n' (pyStrip e.text)
          omega
        constructor
        · intro hnil
          exfalso
          revert hnil
          simp [extract_moves_from_page, extractOne, h0, h1]
        · intro hor
          exact absurd (hor.resolve_left h0) (by simp [hin])
  · intro h1 htail
    have h1' : ¬ (pySplit '\n' (pyStrip e.text)).length < 2 := by omega
    have h0 : pyStrip e.text ≠ "" := by
      intro hemp
      rw [hemp] at h1
      simp [pySplit, pySplitAux] at h1
    have hfind : ((pySplit '\n' (pyStrip e.text)).tail).find? isNameLine = none := by
      rw [List.find?_eq_none]
      intro x hx
      rcases htail x hx with h | h
      · simp [h, isNameLine]
      · simp [isNameLine, h]
    simp [extract_moves_from_page, extractOne, h0, h1', hfind]

/-- C10 witness instance: the element `"1,2\n5"` (second line purely numeric)
is not skipped and its name defaults to the notation `"1,2"`. -/
theorem claim_C10_witness :
    (extract_moves_from_page [(⟨"1,2\n5", none⟩ : Elem)] "paul").map Move.name = ["1,2"] := by
  have h := (claim_C10 ⟨"1,2\n5", none⟩ "paul").2 (by decide) (by decide)
  rw [h]
  decide

/-! ## Claim C4 — stall counter rule -/

/-- Modelled from the spec's stall rule, with the page's extracted-record
count in place of the spec's "raw element count": the counter goes up by one
when the page produced zero new records and its count equals the previous
page's count, and resets to 0 otherwise. -/
def stallRule (prevCount counter nNew extCount : Nat) : Nat :=
  if nNew = 0 ∧ extCount = prevCount then counter + 1 else 0

/-- C4 counterexample: page 1 holds two raw elements (one skipped by the
extractor), page 2 holds one raw element; the raw element counts differ
(2 ≠ 1) and page 2 produced zero new records, yet the loop increments the
stall counter to 1 — so the counter is not incremented "exactly when ... its
raw element count equals the previous page's raw element count". -/
theorem claim_C4_counterexample :
    ([elemSkip, elemA] : List Elem).length ≠ ([elemA] : List Elem).length
    ∧ (stepState (scrapePage "paul" (some [elemA])
          (stepState (scrapePage "paul" (some [elemSkip, elemA]) initScrapeState)))).consecutive_no_new_moves = 1
    ∧ (stepState (scrapePage "paul" (some [elemA])
          (stepState (scrapePage "paul" (some [elemSkip, elemA]) initScrapeState)))).all_moves.length
        = (stepState (scrapePage "paul" (some [elemSkip, elemA]) initScrapeState)).all_moves.length
    ∧ (stepState (scrapePage "paul" (some [elemSkip, elemA]) initScrapeState)).consecutive_no_new_moves = 0 := by
  refine ⟨by decide, ?_, ?_, ?_⟩ <;> rfl

/-- C4 (amended): on a non-terminating page (elements present, records
extracted), the loop's stall counter follows `stallRule` computed from the
number of new records and the page's extracted-record count versus the
previous page's extracted-record count; the iteration breaks exactly when
the counter reaches 2, and any page with new records resets the counter
to 0. -/
theorem claim_C4_amended (character : String) (divs : List Elem) (s : ScrapeState)
    (hD : divs.isEmpty = false)
    (hM : (extract_moves_from_page divs character).isEmpty = false) :
    (stepState (scrapePage character (some divs) s)).consecutive_no_new_moves
        = stallRule s.last_page_count s.consecutive_no_new_moves
            (addNewMoves s.seen s.all_moves (extract_moves_from_page divs character)).2.2
            (extract_moves_from_page divs character).length
    ∧ (isStop (scrapePage character (some divs) s) = true
        ↔ 2 ≤ stallRule s.last_page_count s.consecutive_no_new_moves
            (addNewMoves s.seen s.all_moves (extract_moves_from_page divs character)).2.2
            (extract_moves_from_page divs character).length)
    ∧ (0 < (addNewMoves s.seen s.all_moves (extract_moves_from_page divs character)).2.2 →
        (stepState (scrapePage character (some divs) s)).consecutive_no_new_moves = 0) := by
  simp only [scrapePage, hD, hM, Bool.false_eq_true, if_false, stallRule]
  by_cases hc : (addNewMoves s.seen s.all_moves (extract_moves_from_page divs character)).2.2 = 0
      ∧ (extract_moves_from_page divs character).length = s.last_page_count
  · rw [if_pos hc, if_pos hc]
    by_cases h2 : s.consecutive_no_new_moves + 1 ≥ 2
    · rw [if_pos h2]
      exact ⟨rfl, by simp [isStop, stepState, h2], fun hn => absurd hc.1 (by omega)⟩
    · rw [if_neg h2]
      exact ⟨rfl, by simp [isStop, stepState]; omega, fun hn => absurd hc.1 (by omega)⟩
  · rw [if_neg hc, if_neg hc]
    exact ⟨rfl, by simp [isStop, stepState], fun _ => rfl⟩

/-- C4 amended witness: one fresh page from the initial state — one new
record, counter stays 0, no early stop. -/
theorem claim_C4_amended_witness :
    ((stepState (scrapePage "paul" (some [elemA]) initScrapeState)).consecutive_no_new_moves
        = stallRule initScrapeState.last_page_count initScrapeState.consecutive_no_new_moves
            (addNewMoves initScrapeState.seen initScrapeState.all_moves
              (extract_moves_from_page [elemA] "paul")).2.2
            (extract_moves_from_page [elemA] "paul").length)
    ∧ (isStop (scrapePage "paul" (some [elemA]) initScrapeState) = true
        ↔ 2 ≤ stallRule initScrapeState.last_page_count initScrapeState.consecutive_no_new_moves
            (addNewMoves initScrapeState.seen initScrapeState.all_moves
              (extract_moves_from_page [elemA] "paul")).2.2
            (extract_moves_from_page [elemA] "paul").length)
    ∧ (0 < (addNewMoves initScrapeState.seen initScrapeState.all_moves
              (extract_moves_from_page [elemA] "paul")).2.2 →
        (stepState (scrapePage "paul" (some [elemA]) initScrapeState)).consecutive_no_new_moves = 0) :=
  claim_C4_amended "paul" [elemA] initScrapeState (by decide) (by decide)

/-! ## Claim C7 — dedup key uniqueness -/

lemma addNewMoves_seen_mono :
    ∀ (recs : List Move) (seen : List MoveKey) (acc : List Move) (k : MoveKey),
      k ∈ seen → k ∈ (addNewMoves seen acc recs).2.1 := by
  intro recs
  induction recs with
  | nil => intro seen acc k hk; exact hk
  | cons m rest ih =>
    intro seen acc k hk
    by_cases h : moveKey m ∈ seen
    · simpa [addNewMoves, h] using ih seen acc k hk
    · simpa [addNewMoves, h] using
        ih (moveKey m :: seen) (acc ++ [m]) k (List.mem_cons_of_mem _ hk)

lemma addNewMoves_keys_seen :
    ∀ (recs : List Move) (seen : List MoveKey) (acc : List Move) (k : MoveKey),
      k ∈ moveKeys recs → k ∈ (addNewMoves seen acc recs).2.1 := by
  intro recs
  induction recs with
  | nil => intro seen acc k hk; simp [moveKeys] at hk
  | cons m rest ih =>
    intro seen acc k hk
    rcases List.mem_cons.mp hk with hk | hk
    · by_cases h : moveKey m ∈ seen
      · simpa [addNewMoves, h] using addNewMoves_seen_mono rest seen acc k (hk ▸ h)
      · simpa [addNewMoves, h] using
          addNewMoves_seen_mono rest (moveKey m :: seen) (acc ++ [m]) k (hk ▸ List.mem_cons_self _ _)
    · by_cases h : moveKey m ∈ seen
      · simpa [addNewMoves, h] using ih seen acc k hk
      · simpa [addNewMoves, h] using ih (moveKey m :: seen) (acc ++ [m]) k hk

lemma addNewMoves_no_new :
    ∀ (recs : List Move) (seen : List MoveKey) (acc : List Move),
      (∀ k ∈ moveKeys recs, k ∈ seen) → addNewMoves seen acc recs = (acc, seen, 0) := by
  intro recs
  induction recs with
  | nil => intro seen acc _; rfl
  | cons m rest ih =>
    intro seen acc h
    have hm : moveKey m ∈ seen := h (moveKey m) (List.mem_cons_self _ _)
    simp only [addNewMoves, if_pos hm]
    exact ih seen acc (fun k hk => h k (List.mem_cons_of_mem _ hk))

lemma addNewMoves_nodup :
    ∀ (recs : List Move) (seen : List MoveKey) (acc : List Move),
      (moveKeys acc).Nodup → (∀ k ∈ moveKeys acc, k ∈ seen) →
      (moveKeys (addNewMoves seen acc recs).1).Nodup
        ∧ ∀ k ∈ moveKeys (addNewMoves seen acc recs).1, k ∈ (addNewMoves seen acc recs).2.1 := by
  intro recs
  induction recs with
  | nil =>
    intro seen acc hnd hsub
    exact ⟨hnd, hsub⟩
  | cons m rest ih =>
    intro seen acc hnd hsub
    by_cases h : moveKey m ∈ seen
    · simpa [addNewMoves, h] using ih seen acc hnd hsub
    · have hnotin : moveKey m ∉ moveKeys acc := fun hc => h (hsub _ hc)
      have hnd' : (moveKeys (acc ++ [m])).Nodup := by
        have hmk : moveKeys (acc ++ [m]) = moveKeys acc ++ [moveKey m] := by
          simp [moveKeys]
        rw [hmk]
        refine List.Nodup.append hnd (List.nodup_singleton _) ?_
        intro k hk1 hk2
        rw [List.mem_singleton] at hk2
        exact hnotin (hk2 ▸ hk1)
      have hsub' : ∀ k ∈ moveKeys (acc ++ [m]), k ∈ moveKey m :: seen := by
        intro k hk
        rcases (by simpa [moveKeys] using hk : k ∈ moveKeys acc ∨ k = moveKey m) with hk | hk
        · exact List.mem_cons_of_mem _ (hsub _ hk)
        · exact hk ▸ List.mem_cons_self _ _
      simpa [addNewMoves, h] using ih (moveKey m :: seen) (acc ++ [m]) hnd' hsub'

/-- The loop invariant of `scrape_character_all_pages` used for dedup
uniqueness: keys of the accumulated records are distinct and all marked
seen. -/
def scrapeInv (s : ScrapeState) : Prop :=
  (moveKeys s.all_moves).Nodup ∧ ∀ k ∈ moveKeys s.all_moves, k ∈ s.seen

lemma scrapePage_inv (character : String) (divsOpt : Option (List Elem)) (s : ScrapeState)
    (h : scrapeInv s) : scrapeInv (stepState (scrapePage character divsOpt s)) := by
  match divsOpt with
  | none => exact h
  | some divs =>
    by_cases hD : divs.isEmpty
    · simpa [scrapePage, hD, stepState] using h
    · by_cases hM : (extract_moves_from_page divs character).isEmpty
      · simpa [scrapePage, hD, hM, stepState] using h
      · have hmain := addNewMoves_nodup (extract_moves_from_page divs character) s.seen
          s.all_moves h.1 h.2
        simp only [scrapePage, hD, hM, Bool.false_eq_true, if_false]
        by_cases hc : (addNewMoves s.seen s.all_moves (extract_moves_from_page divs character)).2.2 = 0
            ∧ (extract_moves_from_page divs character).length = s.last_page_count
        · rw [if_pos hc]
          by_cases h2 : s.consecutive_no_new_moves + 1 ≥ 2
        
          · rw [if_pos h2]; exact hmain
          · rw [if_neg h2]; exact hmain
        · rw [if_neg hc]; exact hmain

lemma scrapeGo_inv (fetch : Nat → Option (List Elem)) (character : String) :
    ∀ (fuel page : Nat) (s : ScrapeState), scrapeInv s →
      scrapeInv (scrapeGo fetch character fuel page s).1 := by
  intro fuel
  induction fuel with
  | zero => intro page s h; exact h
  | succ fuel ih =>
    intro page s h
    have hstep := scrapePage_inv character (fetch page) s h
    cases hr : scrapePage character (fetch page) s with
    | stop s' =>
      rw [hr] at hstep
      simpa [scrapeGo, hr] using hstep
    | next s' =>
      rw [hr] at hstep
      simpa [scrapeGo, hr] using ih (page + 1) s' hstep

/-- C7: for every page sequence, the per-character result list has pairwise
distinct dedup keys `(notation, onBlock, onHit)` — a repeated triple
contributes exactly one record. -/
theorem claim_C7 (fetch : Nat → Option (List Elem)) (character : String) :
    ((scrape_character_all_pages fetch character).map moveKey).Nodup :=
  (scrapeGo_inv fetch character 100 1 initScrapeState
    ⟨List.nodup_nil, by simp [initScrapeState, moveKeys]⟩).1

/-! ## Claim C5 — pagination termination -/

lemma scrapeGo_fetch_le (fetch : Nat → Option (List Elem)) (character : String) :
    ∀ (fuel page : Nat) (s : ScrapeState), (scrapeGo fetch character fuel page s).2 ≤ fuel := by
  intro fuel
  induction fuel with
  | zero => intro page s; simp [scrapeGo]
  | succ fuel ih =>
    intro page s
    cases hstep : scrapePage character (fetch page) s with
    | stop s' => simp [scrapeGo, hstep]
    | next s' =>
      simp only [scrapeGo, hstep]
      have := ih (page + 1) s'
      omega

/-- The state reached after fully processing a page whose extracted records
are all already seen: every key of page `N` is marked seen and the recorded
count is page `N`'s extracted count.  (Vacuous when fetching page `N`
raises.) -/
def stallReady (fetch : Nat → Option (List Elem)) (character : String) (N : Nat)
    (s : ScrapeState) : Prop :=
  ∀ divs, fetch N = some divs →
    (∀ k ∈ moveKeys (extract_moves_from_page divs character), k ∈ s.seen)
    ∧ s.last_page_count = (extract_moves_from_page divs character).length

lemma scrapePage_ready (character : String) (divs : List Elem) (s : ScrapeState)
    (hD : divs.isEmpty = false)
    (hM : (extract_moves_from_page divs character).isEmpty = false)
    (hseen : ∀ k ∈ moveKeys (extract_moves_from_page divs character), k ∈ s.seen)
    (hlen : s.last_page_count = (extract_moves_from_page divs character).length) :
    scrapePage character (some divs) s =
      if s.consecutive_no_new_moves + 1 ≥ 2 then
        .stop { all_moves := s.all_moves, seen := s.seen,
                consecutive_no_new_moves := s.consecutive_no_new_moves + 1,
                last_page_count := s.last_page_count }
      else
        .next { all_moves := s.all_moves, seen := s.seen,
                consecutive_no_new_moves := s.consecutive_no_new_moves + 1,
                last_page_count := (extract_moves_from_page divs character).length } := by
  have hr := addNewMoves_no_new (extract_moves_from_page divs character) s.seen s.all_moves hseen
  simp only [scrapePage, hD, hM, Bool.false_eq_true, if_false, hr]
  rw [if_pos ⟨trivial, hlen.symm⟩]

lemma scrapePage_next_fields (character : String) (divs : List Elem) (s s' : ScrapeState)
    (h : scrapePage character (some divs) s = .next s') :
    s'.seen = (addNewMoves s.seen s.all_moves (extract_moves_from_page divs character)).2.1
    ∧ s'.last_page_count = (extract_moves_from_page divs character).length := by
  by_cases hD : divs.isEmpty
  · simp [scrapePage, hD] at h
  · by_cases hM : (extract_moves_from_page divs character).isEmpty
    · simp [scrapePage, hD, hM] at h
    · rw [Bool.not_eq_true] at hD hM
      simp only [scrapePage, hD, hM, Bool.false_eq_true, if_false] at h
      split at h
      · split at h
        · exact StepResult.noConfusion h
        · injection h with h; subst h; exact ⟨rfl, rfl⟩
      · injection h with h; subst h; exact ⟨rfl, rfl⟩

lemma scrapeGo_repeat (fetch : Nat → Option (List Elem)) (character : String) (N : Nat)
    (hrep : ∀ i, N ≤ i → fetch i = fetch N) (hN : 1 ≤ N) :
    ∀ (fuel page : Nat) (s : ScrapeState), page + fuel = 101 → 1 ≤ page → page ≤ N + 2 →
      (page = N + 1 → stallReady fetch character N s) →
      (page = N + 2 → stallReady fetch character N s ∧ 1 ≤ s.consecutive_no_new_moves) →
      (scrapeGo fetch character fuel page s).2 + page ≤ N + 3 := by
  intro fuel
  induction fuel with
  | zero =>
    intro page s hfuel hpage hle _ _
    simp only [scrapeGo]
    omega
  | succ fuel ih =>
    intro page s hfuel hpage hle hN1 hN2
    cases hstep : scrapePage character (fetch page) s with
    | stop s' =>
      simp only [scrapeGo, hstep]
      omega
    | next s' =>
      simp only [scrapeGo, hstep]
      have hne : page ≠ N + 2 := by
        intro hpeq
        obtain ⟨hsr, hcnt⟩ := hN2 hpeq
        have hf : fetch page = fetch N := hrep page (by omega)
        cases hfn : fetch N with
        | none => rw [hf, hfn] at hstep; simp [scrapePage] at hstep
        | some divs =>
          rw [hf, hfn] at hstep
          obtain ⟨hseen, hlen⟩ := hsr divs hfn
          by_cases hD : divs.isEmpty
          · simp [scrapePage, hD] at hstep
          · by_cases hM : (extract_moves_from_page divs character).isEmpty
            · simp [scrapePage, hD, hM] at hstep
            · rw [Bool.not_eq_true] at hD hM
              rw [scrapePage_ready character divs s hD hM hseen hlen,
                if_pos (by omega)] at hstep
              exact StepResult.noConfusion hstep
      have hmain := ih (page + 1) s' (by omega) (by omega) (by omega)
        ?_ ?_
      · omega
      · intro hp1
        have hpN : page = N := by omega
        intro divs hdivs
        rw [hpN, hdivs] at hstep
        obtain ⟨hseen', hlen'⟩ := scrapePage_next_fields character divs s s' hstep
        refine ⟨?_, hlen'⟩
        intro k hk
        rw [hseen']
        exact addNewMoves_keys_seen _ _ _ k hk
      · intro hp2
        have hpN1 : page = N + 1 := by omega
        have hsr := hN1 hpN1
        have hf : fetch page = fetch N := hrep page (by omega)
        cases hfn : fetch N with
        | none => rw [hf, hfn] at hstep; simp [scrapePage] at hstep
        | some divs =>
          rw [hf, hfn] at hstep
          obtain ⟨hseen, hlen⟩ := hsr divs hfn
          by_cases hD : divs.isEmpty
          · simp [scrapePage, hD] at hstep
          · by_cases hM : (extract_moves_from_page divs character).isEmpty
            · simp [scrapePage, hD, hM] at hstep
            · rw [Bool.not_eq_true] at hD hM
              rw [scrapePage_ready character divs s hD hM hseen hlen] at hstep
              by_cases h2 : s.consecutive_no_new_moves + 1 ≥ 2
              · rw [if_pos h2] at hstep
                exact StepResult.noConfusion hstep
              · rw [if_neg h2] at hstep
                injection hstep with h
                subst h
                refine ⟨?_, by simp⟩
                intro divs' hdivs'
                rw [hfn] at hdivs'
                injection hdivs' with h'
                subst h'
                exact ⟨hseen, rfl⟩

/-- C5: the crawler never fetches more than 100 pages, and if from some page
`N ≥ 1` onward the site keeps returning the very same page (page `N+1`
byte-identical to page `N`, and so on), the crawler stops within 2 pages of
the repeat: at most `N + 2` pages are fetched. -/
theorem claim_C5 (fetch : Nat → Option (List Elem)) (character : String) :
    (scrapeRun fetch character).2 ≤ 100
    ∧ ∀ N, 1 ≤ N → (∀ i, N ≤ i → fetch i = fetch N) →
        (scrapeRun fetch character).2 ≤ N + 2 := by
  constructor
  · exact scrapeGo_fetch_le fetch character 100 1 initScrapeState
  · intro N hN hrep
    have h := scrapeGo_repeat fetch character N hrep hN 100 1 initScrapeState
      (by omega) (by omega) (by omega)
      (fun h1 => absurd h1 (by omega))
      (fun h2 => absurd h2 (by omega))
    unfold scrapeRun
    omega

/-- A fetcher that returns the same one-element page forever. -/
def fetchConst : Nat → Option (List Elem) :=
  fun _ => some [elemA]

/-- C5 witness: on the constant page sequence (repeat from page 1), at most 3
pages are fetched, under the 100-page cap. -/
theorem claim_C5_witness :
    (scrapeRun fetchConst "paul").2 ≤ 100 ∧ (scrapeRun fetchConst "paul").2 ≤ 1 + 2 :=
  ⟨(claim_C5 fetchConst "paul").1,
   (claim_C5 fetchConst "paul").2 1 (Nat.le_refl 1) (fun _ _ => rfl)⟩
